import Mathlib

/-!
Verification development for the lightDB SQL adapter: a shallow embedding of
the PostgreSQL strategy (query construction, condition translation, result
parsing), the worker task dispatch of sqlAdapter.js, the PostgreSQLDb draft
adapter, and the key-value / queue logic, together with theorems checking the
natural-language specification against this embedding.

Modelling conventions: JavaScript values are the inductive `JSVal`; machine
integers/timestamps are `Int`/`Nat`; fallible code returns `Except`;
the native driver (node-postgres) and the SQL engine are modelled by explicit
state-passing functions whose behaviour (duplicate-key error 23505,
missing-table error 42P01, transaction BEGIN/COMMIT/ROLLBACK) follows the
error codes the repository's own code matches on.
-/

namespace LightDB

/-- Model of a JavaScript value as the adapter manipulates them: strings,
numbers (restricted to integers, the only numbers the adapter produces),
booleans, null, undefined, Buffers (their byte list), arrays and plain
objects (ordered field lists, as JS objects are ordered). -/
inductive JSVal : Type where
  | str (s : String)
  | num (n : Int)
  | boolean (b : Bool)
  | jsNull
  | undef
  | buf (bytes : List Nat)
  | arr (elems : List JSVal)
  | obj (fields : List (String × JSVal))

/-- JavaScript `typeof` on the modelled values. -/
def typeofJS : JSVal → String
  | .str _ => "string"
  | .num _ => "number"
  | .boolean _ => "boolean"
  | .jsNull => "object"
  | .undef => "undefined"
  | .buf _ => "object"
  | .arr _ => "object"
  | .obj _ => "object"

/-- JavaScript truthiness: the falsy values among the modelled ones. -/
def jsFalsy : JSVal → Bool
  | .str s => s = ""
  | .num n => n = 0
  | .boolean b => !b
  | .jsNull => true
  | .undef => true
  | _ => false

/-- `Buffer.isBuffer` on the modelled values. -/
def isBuffer : JSVal → Bool
  | .buf _ => true
  | _ => false

/-- Assignment of a field on an ordered field list, with JS object-update
semantics: an existing key keeps its position and gets the new value, a new
key is appended at the end. -/
def setField : List (String × JSVal) → String → JSVal → List (String × JSVal)
  | [], k, v => [(k, v)]
  | (k', v') :: rest, k, v =>
      if k' = k then (k, v) :: rest else (k', v') :: setField rest k v

/-- First value bound to a key in an ordered field list. -/
def lookupF : List (String × JSVal) → String → Option JSVal
  | [], _ => none
  | (k', v') :: rest, k => if k' = k then some v' else lookupF rest k

/-- Property access `d[k]` for an object value, `none` on non-objects. -/
def getField : JSVal → String → Option JSVal
  | .obj fs, k => lookupF fs k
  | _, _ => none

/-- Fields contributed by spreading a value (`{...d}`): an object's own
fields; other values contribute none (the index-spreading of strings and
arrays is not exercised by the adapter, whose row data are documents). -/
def jsSpreadFields : JSVal → List (String × JSVal)
  | .obj fs => fs
  | _ => []

/-! JSON serialization, modelling `JSON.stringify` on the modelled values
(`none` for `undefined`, which `JSON.stringify` maps to no output). -/

/-- Hex digit character (lowercase), for escapes and digests. -/
def hexChar (n : Nat) : Char :=
  if n < 10 then Char.ofNat (48 + n) else Char.ofNat (87 + n)

/-- JSON escaping of one character inside a string literal. -/
def jsonEscapeChar (c : Char) : String :=
  if c = '"' then "\\\""
  else if c = '\\' then "\\\\"
  else if c = Char.ofNat 10 then "\\n"
  else if c = Char.ofNat 9 then "\\t"
  else if c = Char.ofNat 13 then "\\r"
  else if c = Char.ofNat 8 then "\\b"
  else if c = Char.ofNat 12 then "\\f"
  else if c.toNat < 32 then
    "\\u00" ++ String.mk [hexChar (c.toNat / 16), hexChar (c.toNat % 16)]
  else String.mk [c]

/-- JSON escaping of the characters of a string (without the quotes). -/
def jsonEscape (s : String) : String :=
  String.join (s.data.map jsonEscapeChar)

/-- Comma-joined list of strings (the shape `Array.prototype.join(',')`
produces inside JSON output). -/
def joinComma : List String → String
  | [] => ""
  | [x] => x
  | x :: rest => x ++ "," ++ joinComma rest

mutual

/-- Model of `JSON.stringify`: `none` exactly for `undefined`. Buffers
serialize through their `toJSON` form as node does. -/
def jsonStringifyVal : JSVal → Option String
  | .str s => some ("\"" ++ jsonEscape s ++ "\"")
  | .num n => some (toString n)
  | .boolean b => some (if b then "true" else "false")
  | .jsNull => some "null"
  | .undef => none
  | .buf bytes =>
      some ("\x7b\"type\":\"Buffer\",\"data\":[" ++
        joinComma (bytes.map (fun b => toString b)) ++ "]\x7d")
  | .arr elems => some ("[" ++ joinComma (jsonArrPieces elems) ++ "]")
  | .obj fields => some ("\x7b" ++ joinComma (jsonFieldPieces fields) ++ "\x7d")

/-- Array element serializations; an `undefined` element prints as null. -/
def jsonArrPieces : List JSVal → List String
  | [] => []
  | e :: rest => ((jsonStringifyVal e).getD "null") :: jsonArrPieces rest

/-- Serialized `"key":value` pieces of an object; fields whose value
serializes to nothing (undefined) are omitted. -/
def jsonFieldPieces : List (String × JSVal) → List String
  | [] => []
  | (k, v) :: rest =>
      match jsonStringifyVal v with
      | none => jsonFieldPieces rest
      | some s => ("\"" ++ jsonEscape k ++ "\":" ++ s) :: jsonFieldPieces rest

end

/-- `JSON.stringify` coerced to a string, for call sites where the argument
is never `undefined` (objects, arrays, concrete scalars). -/
def jsonStringifyObj (v : JSVal) : String :=
  (jsonStringifyVal v).getD "undefined"

mutual

/-- Semantic value stored in a `jsonb` column for a JS value sent through
`JSON.stringify` and parsed back by the driver: undefined object fields are
dropped, undefined array elements become null, Buffers become their `toJSON`
object, everything else is unchanged. -/
def toJsonb : JSVal → JSVal
  | .str s => .str s
  | .num n => .num n
  | .boolean b => .boolean b
  | .jsNull => .jsNull
  | .undef => .undef
  | .buf bytes =>
      .obj [("type", .str "Buffer"), ("data", .arr (bytes.map (fun b => .num (Int.ofNat b))))]
  | .arr elems => .arr (toJsonbArr elems)
  | .obj fields => .obj (toJsonbFields fields)

/-- jsonb image of array elements: undefined becomes null. -/
def toJsonbArr : List JSVal → List JSVal
  | [] => []
  | .undef :: rest => .jsNull :: toJsonbArr rest
  | e :: rest => toJsonb e :: toJsonbArr rest

/-- jsonb image of object fields: undefined-valued fields are dropped. -/
def toJsonbFields : List (String × JSVal) → List (String × JSVal)
  | [] => []
  | (_, .undef) :: rest => toJsonbFields rest
  | (k, v) :: rest => (k, toJsonb v) :: toJsonbFields rest

end

/-! String utilities mirroring the JavaScript operations the adapter uses. -/

/-- Whitespace characters matched by the regular expression class used in the
condition splitter (space, tab, newline, carriage return). -/
def wsChar (c : Char) : Bool :=
  c = ' ' || c = Char.ofNat 9 || c = Char.ofNat 10 || c = Char.ofNat 13

/-- `String.prototype.trim`. -/
def jsTrim (s : String) : String :=
  String.mk (((s.data.dropWhile wsChar).reverse.dropWhile wsChar).reverse)

/-- Splitter for `split(/\s+/)` over the character list: a run of whitespace
separates pieces, a trailing run yields a final empty piece, the empty string
yields one empty piece — as the JS regexp split does. -/
def splitWSGo : List Char → List Char → List (List Char)
  | [], acc => [acc.reverse]
  | [c], acc => if wsChar c then [acc.reverse, []] else [(c :: acc).reverse]
  | c :: c' :: rest, acc =>
      if wsChar c then
        if wsChar c' then splitWSGo (c' :: rest) acc
        else acc.reverse :: splitWSGo (c' :: rest) []
      else splitWSGo (c' :: rest) (c :: acc)

/-- `String.prototype.split(/\s+/)`. -/
def jsSplitWS (s : String) : List String :=
  (splitWSGo s.data []).map String.mk

/-- Separator join, mirroring `Array.prototype.join(sep)`. -/
def joinSep (sep : String) : List String → String
  | [] => ""
  | [x] => x
  | x :: rest => x ++ sep ++ joinSep sep rest

/-- Substring occurrence: `sub` occurs contiguously inside `s`. -/
def strContains (s sub : String) : Prop :=
  ∃ pre post, s = pre ++ sub ++ post

/-! UTF-8 encoding and decoding, modelling how node hashes strings
(`crypto.createHash(...).update(string)` treats the string as UTF-8) and how
`Buffer.prototype.toString()` decodes bytes. -/

/-- UTF-8 bytes of one character. -/
def utf8EncodeChar (c : Char) : List Nat :=
  let n := c.toNat
  if n < 128 then [n]
  else if n < 2048 then [192 + n / 64, 128 + n % 64]
  else if n < 65536 then [224 + n / 4096, 128 + (n / 64) % 64, 128 + n % 64]
  else [240 + n / 262144, 128 + (n / 4096) % 64, 128 + (n / 64) % 64, 128 + n % 64]

/-- UTF-8 bytes of a string. -/
def utf8Bytes (s : String) : List Nat :=
  (s.data.map utf8EncodeChar).foldr (· ++ ·) []

/-- Character from a code point, with the replacement character for values
outside the Unicode scalar range. -/
def charOfCode (n : Nat) : Char :=
  if n < 55296 ∨ (57343 < n ∧ n < 1114112) then Char.ofNat n else Char.ofNat 65533

/-- Whether a byte is a UTF-8 continuation byte. -/
def contByte (b : Nat) : Bool := 128 ≤ b && b < 192

/-- UTF-8 decoder with replacement-character semantics, modelling
`Buffer.prototype.toString()` (default utf8 encoding). Invalid sequences
decode to U+FFFD. -/
def utf8Decode : List Nat → List Char
  | [] => []
  | b :: rest =>
      if b < 128 then charOfCode b :: utf8Decode rest
      else if b < 192 then charOfCode 65533 :: utf8Decode rest
      else if b < 224 then
        match rest with
        | b1 :: rest' =>
            if contByte b1 then charOfCode ((b - 192) * 64 + (b1 - 128)) :: utf8Decode rest'
            else charOfCode 65533 :: utf8Decode (b1 :: rest')
        | [] => [charOfCode 65533]
      else if b < 240 then
        match rest with
        | b1 :: b2 :: rest' =>
            if contByte b1 && contByte b2 then
              charOfCode ((b - 224) * 4096 + (b1 - 128) * 64 + (b2 - 128)) :: utf8Decode rest'
            else charOfCode 65533 :: utf8Decode (b1 :: b2 :: rest')
        | _ => [charOfCode 65533]
      else
        match rest with
        | b1 :: b2 :: b3 :: rest' =>
            if contByte b1 && contByte b2 && contByte b3 then
              charOfCode ((b - 240) * 262144 + (b1 - 128) * 4096 + (b2 - 128) * 64 + (b3 - 128)) ::
                utf8Decode rest'
            else charOfCode 65533 :: utf8Decode (b1 :: b2 :: b3 :: rest')
        | _ => [charOfCode 65533]
termination_by l => l.length
decreasing_by all_goals simp_all <;> omega

/-- Model of `Buffer.prototype.toString()`: UTF-8 decode of the bytes. -/
def bufferToString (bytes : List Nat) : String :=
  String.mk (utf8Decode bytes)

/-! SHA-256, modelling `crypto.createHash('sha256')` (FIPS 180-4), over `Nat`
words reduced modulo 2^32. -/

/-- 32-bit truncation. -/
def m32 (n : Nat) : Nat := n % 4294967296

/-- 32-bit addition. -/
def add32 (a b : Nat) : Nat := m32 (a + b)

/-- 32-bit right rotation. -/
def rotr32 (n x : Nat) : Nat := m32 ((x >>> n) ||| (x <<< (32 - n)))

/-- SHA-256 round constants. -/
def sha256K : List Nat :=
  [1116352408, 1899447441, 3049323471, 3921009573, 961987163, 1508970993,
   2453635748, 2870763221, 3624381080, 310598401, 607225278, 1426881987,
   1925078388, 2162078206, 2614888103, 3248222580, 3835390401, 4022224774,
   264347078, 604807628, 770255983, 1249150122, 1555081692, 1996064986,
   2554220882, 2821834349, 2952996808, 3210313671, 3336571891, 3584528711,
   113926993, 338241895, 666307205, 773529912, 1294757372, 1396182291,
   1695183700, 1986661051, 2177026350, 2456956037, 2730485921, 2820302411,
   3259730800, 3345764771, 3516065817, 3600352804, 4094571909, 275423344,
   430227734, 506948616, 659060556, 883997877, 958139571, 1322822218,
   1537002063, 1747873779, 1955562222, 2024104815, 2227730452, 2361852424,
   2428436474, 2756734187, 3204031479, 3329325298]

/-- SHA-256 initial hash state. -/
def sha256H0 : List Nat :=
  [1779033703, 3144134277, 1013904242, 2773480762, 1359893119, 2600822924,
   528734635, 1541459225]

/-- Big-endian bytes of a number over a fixed byte width. -/
def beBytes : Nat → Nat → List Nat
  | 0, _ => []
  | w + 1, n => (n >>> (8 * w)) % 256 :: beBytes w n

/-- SHA-256 padding: append 0x80, zeros to 56 mod 64, and the 64-bit
big-endian bit length. -/
def sha256Pad (msg : List Nat) : List Nat :=
  let padLen := (55 + 64 - msg.length % 64) % 64 + 1
  msg ++ 128 :: List.replicate (padLen - 1) 0 ++ beBytes 8 (8 * msg.length)

/-- Combine bytes into big-endian 32-bit words. -/
def bytesToWords : List Nat → List Nat
  | b0 :: b1 :: b2 :: b3 :: rest =>
      (((b0 * 256 + b1) * 256 + b2) * 256 + b3) :: bytesToWords rest
  | _ => []

/-- Fixed-size chunking driven by explicit fuel (the list length), so the
definition stays structurally recursive. -/
def chunk64 : Nat → List Nat → List (List Nat)
  | 0, _ => []
  | _, [] => []
  | fuel + 1, l => l.take 64 :: chunk64 fuel (l.drop 64)

/-- Message-schedule extension from 16 to 64 words. -/
def sha256Extend (w : List Nat) : List Nat :=
  (List.range 48).foldl
    (fun ws _ =>
      let i := ws.length
      let w15 := ws.getD (i - 15) 0
      let w2 := ws.getD (i - 2) 0
      let s0 := m32 (rotr32 7 w15 ^^^ rotr32 18 w15 ^^^ (w15 >>> 3))
      let s1 := m32 (rotr32 17 w2 ^^^ rotr32 19 w2 ^^^ (w2 >>> 10))
      ws ++ [add32 (add32 (ws.getD (i - 16) 0) s0) (add32 (ws.getD (i - 7) 0) s1)])
    w

/-- One round of the SHA-256 compression function. -/
def sha256Round (state : List Nat) (kw : Nat × Nat) : List Nat :=
  match state with
  | [a, b, c, d, e, f, g, h] =>
      let s1 := m32 (rotr32 6 e ^^^ rotr32 11 e ^^^ rotr32 25 e)
      let ch := m32 ((e &&& f) ^^^ ((4294967295 - e) &&& g))
      let temp1 := add32 (add32 (add32 h s1) (add32 ch kw.1)) kw.2
      let s0 := m32 (rotr32 2 a ^^^ rotr32 13 a ^^^ rotr32 22 a)
      let maj := m32 ((a &&& b) ^^^ (a &&& c) ^^^ (b &&& c))
      let temp2 := add32 s0 maj
      [add32 temp1 temp2, a, b, c, add32 d temp1, e, f, g]
  | other => other

/-- Compression of one 64-byte block into the running hash state. -/
def sha256Block (h : List Nat) (block : List Nat) : List Nat :=
  let w := sha256Extend (bytesToWords block)
  let final := (sha256K.zip w).foldl sha256Round h
  (h.zip final).map (fun p => add32 p.1 p.2)

/-- SHA-256 digest words of a byte message. -/
def sha256Words (msg : List Nat) : List Nat :=
  (chunk64 (sha256Pad msg).length (sha256Pad msg)).foldl sha256Block sha256H0

/-- Lowercase hexadecimal rendering of one 32-bit word. -/
def wordHex (w : Nat) : String :=
  String.mk ((List.range 8).map (fun i => hexChar ((w >>> (4 * (7 - i))) % 16)))

/-- Model of `crypto.createHash('sha256').update(s).digest('hex')`. -/
def sha256hex (s : String) : String :=
  String.join ((sha256Words (utf8Bytes s)).map wordHex)

/-! Query descriptors: the `{text, parameters}` pairs the Strategy hands to
the driver (`client.query(queryText, queryParams)`). -/

/-- A query descriptor: SQL text plus the bound-parameter list passed
alongside it to the driver. -/
structure QueryDesc where
  query : String
  params : List JSVal

/-- Identifier validation of `PostgreSQLStrategy.createCollection`: the
regular expression test `/^[a-zA-Z0-9_]+$/.test(tableName)`. -/
def validTableName (s : String) : Bool :=
  !s.isEmpty && s.data.all (fun c => c.isAlphanum || c = '_')

/-- Query text of `deleteFromCollection()`. -/
def deleteFromCollection : String := "DELETE FROM collections WHERE name = $1"

/-- `PostgreSQLStrategy.createCollection(tableName, indicesList)`: validates
the table name against the identifier pattern and returns the CREATE TABLE
and collections-registry upsert statements; an invalid name throws before
any statement is produced. -/
def createCollection (tableName : String) (indicesList : JSVal) : Except String (List QueryDesc) :=
  if validTableName tableName = false then
    .error ("Invalid table name: " ++ tableName)
  else
    .ok
      [ { query := "\n                CREATE TABLE IF NOT EXISTS \"" ++ tableName ++
            "\" (\n                    pk TEXT PRIMARY KEY,\n                    data JSONB,\n                    __timestamp BIGINT\n                );\n            ",
          params := [] },
        { query := "\n                INSERT INTO collections (name, indices)\n                VALUES ($1, $2)\n                ON CONFLICT (name) DO UPDATE\n                SET indices = $2;\n            ",
          params := [.str tableName,
            .str (jsonStringifyObj (if jsFalsy indicesList then .arr [] else indicesList))] } ]

/-- `PostgreSQLStrategy.createIndex(tableName, index)`: interpolates both
identifiers into the DDL text with no validation. -/
def createIndex (tableName index : String) : String :=
  "CREATE INDEX IF NOT EXISTS \"" ++ tableName ++ "_" ++ index ++ "\" ON \"" ++
    tableName ++ "\" ((data ->>'" ++ index ++ "'));"

/-- `PostgreSQLStrategy.addIndex(tableName, property)`. -/
def addIndex (tableName property : String) : String :=
  createIndex tableName property

/-- `PostgreSQLStrategy.removeCollection(tableName)`: the DROP TABLE and
registry-delete statements, produced for every name with no validation. -/
def removeCollection (tableName : String) : List QueryDesc :=
  [ { query := "DROP TABLE IF EXISTS \"" ++ tableName ++ "\"", params := [] },
    { query := deleteFromCollection, params := [.str tableName] } ]

/-- `PostgreSQLStrategy.formatFilterCondition(field, operator, value)`: the
condition pieces are interpolated into the clause text. -/
def formatFilterCondition (field operator value : String) : String :=
  "(data->>'" ++ field ++ "')::numeric " ++ operator ++ " " ++ value

/-- Per-condition translation inside
`PostgreSQLStrategy.convertConditionsToLokiQuery`: trim, split on
whitespace, require exactly three tokens, interpolate them. -/
def convertConditionsAux : List String → Except String (List String)
  | [] => .ok []
  | c :: rest =>
      match jsSplitWS (jsTrim c) with
      | [field, operator, value] =>
          (convertConditionsAux rest).map (formatFilterCondition field operator value :: ·)
      | _ => .error ("Invalid condition structure: " ++ c)

/-- `PostgreSQLStrategy.convertConditionsToLokiQuery(conditions)`: empty
input yields the empty clause; otherwise each condition is translated and
the pieces are joined with AND; a malformed condition throws with the
wrapping message of the outer catch. -/
def convertConditionsToLokiQuery (conditions : List String) : Except String String :=
  if conditions.isEmpty then .ok ""
  else
    match convertConditionsAux conditions with
    | .ok pieces => .ok (joinSep " AND " pieces)
    | .error msg => .error ("Error processing filter conditions: " ++ msg)

/-- `PostgreSQLStrategy.filter(tableName, conditions, sort, max)` (the
clause-embedding draft): builds the SELECT text around the given WHERE
clause string and returns it with an empty parameter list. -/
def strategyFilter (tableName conditions : String) (sortField direction : String)
    (max : Option Nat) : QueryDesc :=
  { query := "\n            SELECT pk, data, __timestamp \n            FROM \"" ++ tableName ++
      "\"\n            " ++ (if conditions = "" then "" else "WHERE " ++ conditions) ++
      "\n            ORDER BY " ++
      (if sortField = "__timestamp" then "__timestamp"
        else "(data->>'" ++ sortField ++ "')::numeric") ++ " " ++ direction ++
      "\n            " ++
      (match max with
        | none => ""
        | some m => if m = 0 then "" else "LIMIT " ++ toString m) ++
      "\n        ",
    params := [] }

/-- Filter task of the worker (sqlAdapter.js): convert the condition list to
a WHERE clause, build the filter query sorted on the insertion timestamp,
and hand it to the driver with no bound parameters. -/
def workerFilterDescriptor (tableName : String) (conditions : List String)
    (sortDesc : Bool) (max : Option Nat) : Except String QueryDesc :=
  match (if conditions.isEmpty then .ok "" else convertConditionsToLokiQuery conditions) with
  | .error e => .error e
  | .ok clause =>
      .ok (strategyFilter tableName clause "__timestamp" (if sortDesc then "DESC" else "ASC") max)

/-- Removal of quote characters, `value.replace(/['"]/g, '')`. -/
def stripQuotes (s : String) : String :=
  String.mk (s.data.filter (fun c => !(c = '\'' || c = '"')))

/-- Per-condition translation of `PostgreSQLDb.filter`: the field is
interpolated, the value is pushed onto the bound-parameter list and replaced
by a numbered placeholder in the text. A condition with fewer than three
tokens makes the destructured value undefined and the replace call throw. -/
def pgDbConditionsAux (startIndex : Nat) : List String → Except String (List String × List JSVal)
  | [] => .ok ([], [])
  | c :: rest =>
      match jsSplitWS c with
      | field :: operator :: value :: _ =>
          (pgDbConditionsAux (startIndex + 1) rest).map (fun (ps, vs) =>
            (("(data->>'" ++ field ++ "')::numeric " ++ operator ++ " $" ++ toString startIndex) :: ps,
              JSVal.str (stripQuotes value) :: vs))
      | _ => .error "TypeError: Cannot read properties of undefined (reading 'replace')"

/-- `PostgreSQLDb.filter(tableName, filterConditions, sort, max)` (the draft
adapter of the claim sources): condition values go into the parameter list
as numbered placeholders; the sort field is the first token of the first
condition, defaulting to the insertion timestamp. -/
def pgDbFilterDescriptor (tableName : String) (filterConditions : List String)
    (sortDesc : Bool) (max : Option Nat) : Except String QueryDesc :=
  match pgDbConditionsAux 1 filterConditions with
  | .error e => .error e
  | .ok (pieces, values) =>
      let base := "SELECT pk, data, __timestamp FROM \"" ++ tableName ++ "\""
      let withWhere :=
        if filterConditions.isEmpty then base
        else base ++ " WHERE " ++ joinSep " AND " pieces
      let sortField :=
        match filterConditions with
        | [] => "__timestamp"
        | c :: _ =>
            match c.splitOn " " with
            | [] => "__timestamp"
            | tok :: _ => if tok = "" then "__timestamp" else tok
      let dir := if sortDesc then "DESC" else "ASC"
      let withOrder :=
        if sortField = "__timestamp" then withWhere ++ " ORDER BY __timestamp " ++ dir
        else withWhere ++ " ORDER BY (data->>'" ++ sortField ++ "')::numeric " ++ dir
      let withLimit :=
        match max with
        | none => withOrder
        | some m => if m = 0 then withOrder else withOrder ++ " LIMIT " ++ toString m
      .ok { query := withLimit, params := values }

/-! Rows, results and result parsing. A row models one record of a
collection table: `pk TEXT PRIMARY KEY, data JSONB, __timestamp BIGINT`; the
`data` field holds the jsonb-decoded document. -/

/-- One row as the driver delivers it. -/
structure SqlRow where
  pk : String
  data : JSVal
  __timestamp : Int

/-- A driver result: the returned rows plus the row count and command tag
that the code's serialization step copies. -/
structure SqlResult where
  rows : List SqlRow
  rowCount : Nat
  command : String

/-- A driver/worker error as the adapter observes it. -/
structure SqlErr where
  message : String
  code : Option String
  constraint : Option String
  detail : Option String

/-- A plain `new Error(message)`: no vendor code, constraint or detail. -/
def plainErr (msg : String) : SqlErr := ⟨msg, none, none, none⟩

/-- The merged record shape `{...data, pk: row.pk, __timestamp: row.__timestamp}`
that the parse functions build: the document body's fields with `pk` and
`__timestamp` assigned afterwards (existing keys overwritten). -/
def mergeRow (row : SqlRow) : JSVal :=
  .obj (setField (setField (jsSpreadFields row.data) "pk" (.str row.pk))
    "__timestamp" (.num row.__timestamp))

/-- `parseGetResult(result)`: the first row's document body alone, null when
no row came back. -/
def parseGetResult (result : SqlResult) : Option JSVal :=
  match result.rows with
  | [] => none
  | row :: _ => some row.data

/-- `parseDeleteResult(result)`: an object with the body nested under a
`data` key, next to `pk` and `__timestamp`. -/
def parseDeleteResult (result : SqlResult) : Option JSVal :=
  match result.rows with
  | [] => none
  | row :: _ =>
      some (.obj [("pk", .str row.pk), ("data", row.data),
        ("__timestamp", .num row.__timestamp)])

/-- `parseUpdateResult(result)`: the first row merged, null when no row
matched. (The string-reparse branch is the identity on jsonb-decoded data.) -/
def parseUpdateResult (result : SqlResult) : Option JSVal :=
  match result.rows with
  | [] => none
  | row :: _ => some (mergeRow row)

/-- `parseFilterResults(result)`: every row merged. (The string-reparse and
null-filter branches are the identity on jsonb-decoded data.) -/
def parseFilterResults (result : SqlResult) : List JSVal :=
  result.rows.map mergeRow

/-- `parseInsertResult(result, pk, record)`: throws when no row came back;
otherwise the row merged, with the caller's pk and the current time as
fallbacks for falsy row fields (`row.pk || pk`,
`parseInt(row.__timestamp) || Date.now()`). -/
def parseInsertResult (result : SqlResult) (pk : String) (now : Int) : Except SqlErr JSVal :=
  match result.rows with
  | [] => .error (plainErr "Insert operation failed to return result")
  | row :: _ =>
      .ok (.obj (setField
        (setField (jsSpreadFields row.data) "pk" (.str (if row.pk = "" then pk else row.pk)))
        "__timestamp" (.num (if row.__timestamp = 0 then now else row.__timestamp))))

/-- `parseCountResult(result)` on the engine's COUNT output, as a number. -/
def parseCountResult (n : Nat) : Nat := n

/-! Database-state model: the named tables with their rows, and the engine
semantics (node-postgres driver + PostgreSQL) for the statement shapes the
adapter issues. The engine behaviours modelled — error code 23505 on a
duplicate primary key, error code 42P01 on a missing relation, statement
atomicity — are the ones the repository's own code matches on. -/

/-- The database: an association list from table name to rows. -/
def DbState := List (String × List SqlRow)

/-- Rows of a table, `none` when the relation does not exist. -/
def lookupTable : DbState → String → Option (List SqlRow)
  | [], _ => none
  | (n, rows) :: rest, t => if n = t then some rows else lookupTable rest t

/-- Replacement of a table's rows (creating the table if absent). -/
def setTable : DbState → String → List SqlRow → DbState
  | [], t, rows => [(t, rows)]
  | (n, rs) :: rest, t, rows =>
      if n = t then (t, rows) :: rest else (n, rs) :: setTable rest t rows

/-- First row with the given primary key. -/
def rowLookup : List SqlRow → String → Option SqlRow
  | [], _ => none
  | r :: rest, pk => if r.pk = pk then some r else rowLookup rest pk

/-- PostgreSQL's missing-relation error (the code the adapter matches on). -/
def err42P01 (t : String) : SqlErr :=
  { message := "relation \"" ++ t ++ "\" does not exist", code := some "42P01",
    constraint := none, detail := none }

/-- PostgreSQL's unique-violation error on a collection table's primary key. -/
def err23505 (t pk : String) : SqlErr :=
  { message := "duplicate key value violates unique constraint \"" ++ t ++ "_pkey\"",
    code := some "23505", constraint := some (t ++ "_pkey"),
    detail := some ("Key (pk)=(" ++ pk ++ ") already exists.") }

/-- Engine semantics of the adapter's INSERT ... RETURNING *: fails with
23505 when the primary key exists, with 42P01 when the table does not; a
failing statement leaves the database unchanged. -/
def pgInsertRow (st : DbState) (t pk : String) (d : JSVal) (ts : Int) :
    Except SqlErr (DbState × SqlRow) :=
  match lookupTable st t with
  | none => .error (err42P01 t)
  | some rows =>
      match rowLookup rows pk with
      | some _ => .error (err23505 t pk)
      | none => .ok (setTable st t (rows ++ [⟨pk, d, ts⟩]), ⟨pk, d, ts⟩)

/-- Engine semantics of the adapter's UPDATE ... WHERE pk = $1 RETURNING:
the matched rows are rewritten with the new data and timestamp; no match
returns no rows. -/
def pgUpdateRow (st : DbState) (t pk : String) (d : JSVal) (ts : Int) :
    Except SqlErr (DbState × List SqlRow) :=
  match lookupTable st t with
  | none => .error (err42P01 t)
  | some rows =>
      match rowLookup rows pk with
      | none => .ok (st, [])
      | some _ =>
          .ok (setTable st t (rows.map (fun r => if r.pk = pk then ⟨pk, d, ts⟩ else r)),
            [⟨pk, d, ts⟩])

/-- Engine semantics of SELECT over a whole table. -/
def pgSelectAll (st : DbState) (t : String) : Except SqlErr (List SqlRow) :=
  match lookupTable st t with
  | none => .error (err42P01 t)
  | some rows => .ok rows

/-- Engine semantics of SELECT COUNT(*). -/
def pgCountRows (st : DbState) (t : String) : Except SqlErr Nat :=
  match lookupTable st t with
  | none => .error (err42P01 t)
  | some rows => .ok rows.length

/-- Error normalization of the strategy's `executeQuery` catch block: a new
error carrying the message and vendor code (constraint and detail are not
copied). -/
def wrapExecError (e : SqlErr) : SqlErr :=
  { message := e.message, code := e.code, constraint := none, detail := none }

/-- Stable insertion by timestamp, modelling ORDER BY __timestamp. -/
def insertByTs (desc : Bool) (r : SqlRow) : List SqlRow → List SqlRow
  | [] => [r]
  | x :: rest =>
      if (if desc then x.__timestamp < r.__timestamp else r.__timestamp < x.__timestamp) then
        r :: x :: rest
      else x :: insertByTs desc r rest

/-- ORDER BY __timestamp ASC/DESC as an insertion sort. -/
def sortByTs (desc : Bool) (rows : List SqlRow) : List SqlRow :=
  rows.foldr (insertByTs desc) []

/-- LIMIT clause semantics; the clause is only emitted for a truthy limit,
so 0 means no limit, as in the JavaScript `onlyFirstN ? LIMIT ... : ''`. -/
def applyLimit (limit : Option Nat) (l : List String) : List String :=
  match limit with
  | none => l
  | some n => if n = 0 then l else l.take n

/-! Worker record, queue and key-value operations: the sqlAdapter.js task
cases composed with the strategy's query builders, the engine semantics and
the result parsers. -/

/-- Worker `insertRecord` task: INSERT with server-side timestamp; a 23505
unique violation is rethrown as the duplicate-record error; the database
state is returned alongside the outcome. -/
def workerInsertRecord (st : DbState) (tableName pk : String) (record : JSVal) (now : Int) :
    DbState × Except SqlErr JSVal :=
  match pgInsertRow st tableName pk (toJsonb record) now with
  | .error e =>
      let e' := wrapExecError e
      if e'.code = some "23505" then
        (st, .error (plainErr ("Record with key " ++ pk ++ " already exists")))
      else (st, .error e')
  | .ok (st', row) =>
      match parseInsertResult { rows := [row], rowCount := 1, command := "INSERT" } pk now with
      | .error e => (st', .error e)
      | .ok doc => (st', .ok doc)

/-- Worker `updateRecord` task: UPDATE with server-side timestamp, result
parsed by `parseUpdateResult` (null when no row matched). -/
def workerUpdateRecord (st : DbState) (tableName pk : String) (record : JSVal) (now : Int) :
    DbState × Except SqlErr (Option JSVal) :=
  match pgUpdateRow st tableName pk (toJsonb record) now with
  | .error e => (st, .error (wrapExecError e))
  | .ok (st', rows) =>
      (st', .ok (parseUpdateResult { rows := rows, rowCount := rows.length, command := "UPDATE" }))

/-- Worker `listQueue` task: SELECT ordered by insertion timestamp with the
optional limit, mapped to the primary keys; an engine failure — including a
missing table — propagates as an error. -/
def workerListQueue (st : DbState) (queueName : String) (sortDesc : Bool) (limit : Option Nat) :
    Except SqlErr (List String) :=
  match pgSelectAll st queueName with
  | .error e => .error (wrapExecError e)
  | .ok rows => .ok (applyLimit limit ((sortByTs sortDesc rows).map SqlRow.pk))

/-- Worker `count` task, which also backs the facade's `queueSize`. -/
def workerCount (st : DbState) (tableName : String) : Except SqlErr Nat :=
  match pgCountRows st tableName with
  | .error e => .error (wrapExecError e)
  | .ok n => .ok (parseCountResult n)

/-- Facade `queueSize(queueName)`: delegates to the count task. -/
def facadeQueueSize (st : DbState) (queueName : String) : Except SqlErr Nat :=
  workerCount st queueName

/-- `PostgreSQLDb.listQueue` (the draft adapter): same SELECT, but an error
with the missing-relation code 42P01 is caught and turned into the empty
list. -/
def pgDbListQueue (st : DbState) (queueName : String) (sortDesc : Bool) (limit : Option Nat) :
    Except SqlErr (List String) :=
  match pgSelectAll st queueName with
  | .error e => if e.code = some "42P01" then .ok [] else .error e
  | .ok rows => .ok (applyLimit limit ((sortByTs sortDesc rows).map SqlRow.pk))

/-- Primary-key derivation of `addInQueue`: the SHA-256 hex digest of the
JSON-serialized payload, suffixed with the current time and a random token
when uniqueness is requested. -/
def addInQueuePk (object : JSVal) (ensureUniqueness : Bool) (now : Nat) (randomTok : String) :
    String :=
  let hash := sha256hex (jsonStringifyObj object)
  if ensureUniqueness then hash ++ "_" ++ toString now ++ "_" ++ randomTok else hash

/-- `PostgreSQLStrategy.addInQueue(connection, queueName, object,
ensureUniqueness)`: derive the key, insert the serialized payload under it,
return the key. -/
def addInQueue (st : DbState) (queueName : String) (object : JSVal) (ensureUniqueness : Bool)
    (now : Nat) (randomTok : String) : DbState × Except SqlErr String :=
  match pgInsertRow st queueName (addInQueuePk object ensureUniqueness now randomTok)
      (toJsonb object) (Int.ofNat now) with
  | .error e => (st, .error (wrapExecError e))
  | .ok (st', _) => (st', .ok (addInQueuePk object ensureUniqueness now randomTok))

/-! Key-value operations: the facade's type-tagging envelope and the
KeyValueTable upsert/select, modelled over an association list. -/

/-- The value envelope the facade's `writeKey` builds before dispatch:
Buffers become their decoded text tagged "buffer", non-null objects their
JSON serialization tagged "object", everything else is stored as is under
its `typeof` tag. -/
def writeKeyEnvelope : JSVal → JSVal
  | .buf bytes => .obj [("type", .str "buffer"), ("value", .str (bufferToString bytes))]
  | .arr elems => .obj [("type", .str "object"), ("value", .str (jsonStringifyObj (.arr elems)))]
  | .obj fields => .obj [("type", .str "object"), ("value", .str (jsonStringifyObj (.obj fields)))]
  | v => .obj [("type", .str (typeofJS v)), ("value", v)]

/-- The key-value table: key to stored jsonb envelope. -/
def KVState := List (String × JSVal)

/-- `writeKey(key, value)` through the worker: the envelope is serialized
into the jsonb column with INSERT ... ON CONFLICT (pk) DO UPDATE, and the
stored data is returned (`parseWriteKeyResult` maps falsy data to null). -/
def writeKey (kv : KVState) (key : String) (value : JSVal) : KVState × Option JSVal :=
  let env := toJsonb (writeKeyEnvelope value)
  (setField kv key env, if jsFalsy env then none else some env)

/-- `readKey(key)` through the worker: SELECT by key;
`parseReadKeyResult` maps a missing row or falsy data to null, and the
facade passes a non-string result through unchanged. -/
def readKey (kv : KVState) (key : String) : Option JSVal :=
  match lookupF kv key with
  | none => none
  | some d => if jsFalsy d then none else some d

/-! Transactions: `PostgreSQLStrategy.executeTransaction` acquires a client,
issues BEGIN, runs the statements in order, COMMITs when all succeeded and
ROLLBACKs on the first failure, rethrowing it. The engine is abstracted as
an `exec` function so the transaction discipline is provable for any
statement semantics. -/

/-- A transaction entry: the code accepts a raw SQL string or a query
descriptor (whose missing params default to the empty list). -/
inductive TxQuery : Type where
  | raw (s : String)
  | desc (q : QueryDesc)

/-- Query text of a transaction entry. -/
def txText : TxQuery → String
  | .raw s => s
  | .desc q => q.query

/-- Bound parameters of a transaction entry. -/
def txParams : TxQuery → List JSVal
  | .raw _ => []
  | .desc q => q.params

/-- The statement loop between BEGIN and COMMIT: statements run in order on
the working state; an empty query text or a failing statement aborts with
that error. -/
def runTxQueries (exec : DbState → String → List JSVal → Except SqlErr (DbState × SqlResult)) :
    DbState → List TxQuery → Except SqlErr (DbState × List SqlResult)
  | st, [] => .ok (st, [])
  | st, q :: rest =>
      if txText q = "" then
        .error (plainErr "Query string is required")
      else
        match exec st (txText q) (txParams q) with
        | .error e => .error e
        | .ok (st', res) =>
            match runTxQueries exec st' rest with
            | .error e => .error e
            | .ok (st'', results) => .ok (st'', res :: results)

/-- `executeTransaction(connection, queries)`: COMMIT installs the working
state when every statement succeeded; otherwise ROLLBACK discards it, the
caller's state is unchanged and the first failure is rethrown. -/
def executeTransaction
    (exec : DbState → String → List JSVal → Except SqlErr (DbState × SqlResult))
    (st : DbState) (queries : List TxQuery) : DbState × Except SqlErr (List SqlResult) :=
  match runTxQueries exec st queries with
  | .ok (st', results) => (st', .ok results)
  | .error e => (st, .error e)

/-! Worker error serialization (sqlAdapter.js message handler): every
failure caught in the worker is flattened to one plain descriptor before it
crosses the thread boundary. -/

/-- A failure as caught inside the worker: whatever fields the thrown error
carried. -/
structure WorkerFailure where
  message : String
  stack : String
  code : Option String
  constraint : Option String
  detail : Option String

/-- The descriptor posted back to the facade for a failure. -/
structure SerializedError where
  message : String
  stack : String
  code : Option String
  constraint : Option String
  detail : Option String
  isTestError : Bool
  type : String

/-- The worker's catch block: copy message/stack/code/constraint/detail and
stamp the constant `isTestError: true` and `type: 'DatabaseError'`. -/
def serializeWorkerError (e : WorkerFailure) : SerializedError :=
  { message := e.message, stack := e.stack, code := e.code,
    constraint := e.constraint, detail := e.detail,
    isTestError := true, type := "DatabaseError" }

/-- The failure message posted to the parent port. -/
structure WorkerResponse where
  success : Bool
  error : Option SerializedError

/-- `parentPort.postMessage({success: false, error: serializedError})`. -/
def workerFailureResponse (e : WorkerFailure) : WorkerResponse :=
  { success := false, error := some (serializeWorkerError e) }

/-- Demonstration database with one empty queue table, for witnesses. -/
def demoQueueState : DbState := [("q", [])]

/-- Demonstration payload document. -/
def demoPayload : JSVal := .obj [("value", .num 1)]

/-- Value token of a filter condition: the third whitespace-separated token
after trimming, as the condition translator extracts it. -/
def thirdTokenOf (c : String) : Option String :=
  match jsSplitWS (jsTrim c) with
  | [_, _, v] => some v
  | _ => none

/-- Formalization of claim C1 as stated: in every filter query descriptor
the worker builds, each condition's value token is passed in the
bound-parameter list and never appears in the SQL text. -/
def filterValuesAlwaysBound : Prop :=
  ∀ tableName conds sortDesc max d,
    workerFilterDescriptor tableName conds sortDesc max = .ok d →
    ∀ c ∈ conds, ∀ v, thirdTokenOf c = some v →
      JSVal.str v ∈ d.params ∧ ¬ strContains d.query v

/-- Formalization of claim C2 as stated: every identifier-taking operation
validates against the pattern; an invalid identifier yields an error and no
DDL or DML statement is produced (the operations without a failure channel
would have to produce nothing). -/
def identifiersAlwaysValidated : Prop :=
  ∀ name, validTableName name = false →
    (∃ e, createCollection name .undef = .error e) ∧
    removeCollection name = [] ∧
    addIndex name "field" = ""

/-- The merged-record contract: `pk` and `__timestamp` carry the stored
values (whatever the body said) and every other body field is present
unchanged. -/
def recordMergedShape (d : JSVal) (row : SqlRow) : Prop :=
  getField d "pk" = some (.str row.pk) ∧
  getField d "__timestamp" = some (.num row.__timestamp) ∧
  ∀ k v, lookupF (jsSpreadFields row.data) k = some v → k ≠ "pk" → k ≠ "__timestamp" →
    getField d k = some v

/-- Formalization of claim C3 as stated: every record-producing parse —
get, delete, update, and each filter row — returns the stored body merged
with `pk` and `__timestamp`. -/
def everyRecordResultMerged : Prop :=
  ∀ (row : SqlRow) (n : Nat) (cmd : String),
    (∀ d, parseGetResult ⟨[row], n, cmd⟩ = some d → recordMergedShape d row) ∧
    (∀ d, parseDeleteResult ⟨[row], n, cmd⟩ = some d → recordMergedShape d row) ∧
    (∀ d, parseUpdateResult ⟨[row], n, cmd⟩ = some d → recordMergedShape d row) ∧
    (∀ d ∈ parseFilterResults ⟨[row], n, cmd⟩, recordMergedShape d row)

/-- Formalization of claim C4 as stated: listQueue and queueSize on a queue
whose backing table does not exist deliver an empty result, not an error. -/
def emptyQueueForMissingTable : Prop :=
  ∀ st q sortDesc limit, lookupTable st q = none →
    workerListQueue st q sortDesc limit = .ok [] ∧ facadeQueueSize st q = .ok 0

/-- Demonstration state with one stored record, for the C6 witness. -/
def demoDupState : DbState :=
  [("t", [⟨"k1", .obj [("name", .str "Test"), ("value", .num 123)], 5⟩])]

/-- Formalization of claim C7 as stated: for every existing record, the
updated record's `__timestamp` is strictly greater than the record's prior
timestamp. -/
def updateTimestampStrictlyIncreases : Prop :=
  ∀ st t pk doc (now : Int) rows r st' rec (k : Int),
    lookupTable st t = some rows → rowLookup rows pk = some r →
    workerUpdateRecord st t pk doc now = (st', .ok (some rec)) →
    getField rec "__timestamp" = some (.num k) →
    r.__timestamp < k

/-! A lower-level check of the transaction discipline: the exact command
trace `executeTransaction` sends over its client — BEGIN, the statements up
to and including the first failure, then COMMIT or ROLLBACK — replayed
against a session semantics in which BEGIN snapshots the committed state,
statements act on the working copy, COMMIT installs it and ROLLBACK
discards it, lands in the same final database state. -/

/-- One command sent over the acquired client. -/
inductive ClientCmd : Type where
  | begin
  | runStmt (text : String) (params : List JSVal)
  | commit
  | rollback

/-- The commands `executeTransaction` issues after BEGIN: each statement in
order; after a failure (or the empty-text throw, which issues nothing) a
ROLLBACK; after full success a COMMIT. -/
def clientCmds (exec : DbState → String → List JSVal → Except SqlErr (DbState × SqlResult)) :
    DbState → List TxQuery → List ClientCmd
  | _, [] => [.commit]
  | st, q :: rest =>
      if txText q = "" then [.rollback]
      else
        match exec st (txText q) (txParams q) with
        | .error _ => [.runStmt (txText q) (txParams q), .rollback]
        | .ok (st', _) => .runStmt (txText q) (txParams q) :: clientCmds exec st' rest

/-- Session semantics of the engine: committed state plus an optional open
transaction's working state. A failing statement inside a transaction
changes nothing (the code sends only ROLLBACK afterwards). -/
def applySession (exec : DbState → String → List JSVal → Except SqlErr (DbState × SqlResult)) :
    DbState → Option DbState → List ClientCmd → DbState
  | committed, _, [] => committed
  | committed, _, .begin :: rest => applySession exec committed (some committed) rest
  | committed, some w, .runStmt t p :: rest =>
      match exec w t p with
      | .ok (w', _) => applySession exec committed (some w') rest
      | .error _ => applySession exec committed (some w) rest
  | committed, none, .runStmt t p :: rest =>
      match exec committed t p with
      | .ok (st', _) => applySession exec st' none rest
      | .error _ => applySession exec committed none rest
  | _, some w, .commit :: rest => applySession exec w none rest
  | committed, none, .commit :: rest => applySession exec committed none rest
  | committed, _, .rollback :: rest => applySession exec committed none rest

/-- Worker `createCollection` task path: the strategy builds the statement
list (validation included) and `executeTransaction` runs it; a validation
failure reaches the caller before any statement runs. -/
def workerCreateCollection
    (exec : DbState → String → List JSVal → Except SqlErr (DbState × SqlResult))
    (st : DbState) (name : String) (indices : JSVal) :
    DbState × Except SqlErr (List SqlResult) :=
  match createCollection name indices with
  | .error e => (st, .error (plainErr e))
  | .ok qs => executeTransaction exec st (qs.map TxQuery.desc)

/-- Worker `removeCollection` task path: the strategy's DROP and
registry-delete statements run inside one `executeTransaction`. -/
def workerRemoveCollection
    (exec : DbState → String → List JSVal → Except SqlErr (DbState × SqlResult))
    (st : DbState) (name : String) : DbState × Except SqlErr (List SqlResult) :=
  executeTransaction exec st ((removeCollection name).map TxQuery.desc)

/-- Demonstration statement executor for the C5 witness: fails on the text
FAIL, otherwise creates the named table. -/
def demoExec : DbState → String → List JSVal → Except SqlErr (DbState × SqlResult) :=
  fun st text _ =>
    if text = "FAIL" then .error (plainErr "boom")
    else .ok (setTable st text [], ⟨[], 0, "CREATE TABLE"⟩)

/-- Demonstration statement executor whose registry delete fails, to
exercise the rollback of the removeCollection transaction. -/
def demoExecDeleteFails : DbState → String → List JSVal → Except SqlErr (DbState × SqlResult) :=
  fun st text _ =>
    if text = deleteFromCollection then .error (plainErr "delete failed")
    else .ok (setTable st text [], ⟨[], 0, "DROP TABLE"⟩)

/-! Supporting lemmas. -/

theorem lookupF_setField_self (fs : List (String × JSVal)) (k : String) (v : JSVal) :
    lookupF (setField fs k v) k = some v := by
  induction fs with
  | nil => simp [setField, lookupF]
  | cons hd tl ih =>
      obtain ⟨k', v'⟩ := hd
      by_cases h : k' = k
      · simp [setField, lookupF, h]
      · simp [setField, lookupF, h, ih]

theorem lookupF_setField_ne (fs : List (String × JSVal)) (k k' : String) (v : JSVal)
    (h : k' ≠ k) : lookupF (setField fs k v) k' = lookupF fs k' := by
  have hk : ¬ (k = k') := fun hk => h hk.symm
  induction fs with
  | nil => simp [setField, lookupF, hk]
  | cons hd tl ih =>
      obtain ⟨k₀, v₀⟩ := hd
      by_cases h₀ : k₀ = k
      · subst h₀
        simp [setField, lookupF, hk]
      · simp [setField, lookupF, h₀, ih]

theorem strContains_append_left (a s sub : String) (h : strContains s sub) :
    strContains (a ++ s) sub := by
  obtain ⟨pre, post, rfl⟩ := h
  exact ⟨a ++ pre, post, by simp [String.append_assoc]⟩

theorem strContains_append_right (s b sub : String) (h : strContains s sub) :
    strContains (s ++ b) sub := by
  obtain ⟨pre, post, rfl⟩ := h
  exact ⟨pre, post ++ b, by simp [String.append_assoc]⟩

theorem pgInsertRow_ok_row (st : DbState) (t pk : String) (d : JSVal) (ts : Int)
    (st' : DbState) (row : SqlRow) (h : pgInsertRow st t pk d ts = .ok (st', row)) :
    row = ⟨pk, d, ts⟩ := by
  unfold pgInsertRow at h
  rcases hl : lookupTable st t with _ | rows <;> rw [hl] at h
  · simp at h
  · simp only [] at h
    rcases hr : rowLookup rows pk with _ | r <;> rw [hr] at h
    · simp at h
      exact h.2.symm
    · simp at h

theorem strContains_of_mem_joinSep (sep : String) (l : List String) (x : String)
    (h : x ∈ l) : strContains (joinSep sep l) x := by
  induction l with
  | nil => cases h
  | cons hd tl ih =>
      cases tl with
      | nil =>
          rcases List.mem_singleton.mp h with rfl
          exact ⟨"", "", by simp [joinSep]⟩
      | cons hd' tl' =>
          rcases List.mem_cons.mp h with rfl | hmem
          · exact ⟨"", sep ++ joinSep sep (hd' :: tl'),
              by simp [joinSep, String.append_assoc]⟩
          · show strContains (joinSep sep (hd :: hd' :: tl')) x
            have : joinSep sep (hd :: hd' :: tl') =
                (hd ++ sep) ++ joinSep sep (hd' :: tl') := by
              simp [joinSep, String.append_assoc]
            rw [this]
            exact strContains_append_left _ _ _ (ih hmem)

/-! Claim C10. -/

/-- C10: every failure raised inside the worker is delivered as a plain
descriptor with message, stack, code, constraint and detail copied verbatim,
in which `type` is always the constant "DatabaseError" and `isTestError` is
always true — so any two failures, whatever their cause, carry the same type
tag at the Facade. -/
theorem c10_worker_errors_uniformly_tagged (e e' : WorkerFailure) :
    (workerFailureResponse e).success = false ∧
    (workerFailureResponse e).error = some (serializeWorkerError e) ∧
    (serializeWorkerError e).message = e.message ∧
    (serializeWorkerError e).stack = e.stack ∧
    (serializeWorkerError e).code = e.code ∧
    (serializeWorkerError e).constraint = e.constraint ∧
    (serializeWorkerError e).detail = e.detail ∧
    (serializeWorkerError e).type = "DatabaseError" ∧
    (serializeWorkerError e).isTestError = true ∧
    (serializeWorkerError e).type = (serializeWorkerError e').type :=
  ⟨rfl, rfl, rfl, rfl, rfl, rfl, rfl, rfl, rfl, rfl⟩

/-! Claim C8. -/

/-- C8: writing a string, a Buffer or a non-null object and reading the key
back returns the type-tagged envelope — `{type:"string", value:s}` for a
string, `{type:"buffer", value: decoded text}` for a Buffer, and
`{type:"object", value: JSON serialization}` for an object — so the original
value's type is reconstructible. -/
theorem c8_writeKey_readKey_envelope (kv : KVState) (k : String) :
    (∀ s, readKey (writeKey kv k (.str s)).1 k =
      some (.obj [("type", .str "string"), ("value", .str s)])) ∧
    (∀ bytes, readKey (writeKey kv k (.buf bytes)).1 k =
      some (.obj [("type", .str "buffer"), ("value", .str (bufferToString bytes))])) ∧
    (∀ fields, readKey (writeKey kv k (.obj fields)).1 k =
      some (.obj [("type", .str "object"),
        ("value", .str (jsonStringifyObj (.obj fields)))])) := by
  refine ⟨fun s => ?_, fun bytes => ?_, fun fields => ?_⟩ <;>
    simp [readKey, writeKey, writeKeyEnvelope, typeofJS, toJsonb, toJsonbFields,
      lookupF_setField_self, jsFalsy]

/-! Claim C9. -/

/-- C9: `addInQueue` derives the primary key from the SHA-256 hex digest of
the JSON-serialized payload; without uniqueness the returned key is exactly
that digest — so identical payloads yield identical keys irrespective of
clock and randomness — and with uniqueness it is the digest suffixed with
the timestamp and the random token. -/
theorem c9_addInQueue_key_is_content_hash :
    (∀ st queueName payload (now : Nat) rnd st' pk,
      addInQueue st queueName payload false now rnd = (st', .ok pk) →
      pk = sha256hex (jsonStringifyObj payload)) ∧
    (∀ payload (now now' : Nat) rnd rnd',
      addInQueuePk payload false now rnd = addInQueuePk payload false now' rnd') ∧
    (∀ payload (now : Nat) rnd,
      addInQueuePk payload true now rnd =
        sha256hex (jsonStringifyObj payload) ++ "_" ++ toString now ++ "_" ++ rnd) := by
  refine ⟨fun st queueName payload now rnd st' pk h => ?_,
    fun _ _ _ _ _ => by unfold addInQueuePk; simp,
    fun _ _ _ => by unfold addInQueuePk; simp⟩
  unfold addInQueue at h
  rcases hins : pgInsertRow st queueName (addInQueuePk payload false now rnd)
      (toJsonb payload) (Int.ofNat now) with e | pr
  · rw [hins] at h
    simp at h
  · rw [hins] at h
    simp at h
    exact h.2.symm

/-- Witness for C9: on the demonstration state the insert succeeds and the
returned key is the content hash of the payload. -/
theorem c9_witness :
    ∃ st' pk, addInQueue demoQueueState "q" demoPayload false 7 "r" = (st', .ok pk) ∧
      pk = sha256hex (jsonStringifyObj demoPayload) := by
  have h : addInQueue demoQueueState "q" demoPayload false 7 "r" =
      (setTable demoQueueState "q"
        [⟨addInQueuePk demoPayload false 7 "r", toJsonb demoPayload, Int.ofNat 7⟩],
        .ok (addInQueuePk demoPayload false 7 "r")) := rfl
  exact ⟨_, _, h, (c9_addInQueue_key_is_content_hash.1 _ _ _ _ _ _ _ h)⟩

/-! Claim C1. -/

theorem convertConditionsAux_mem :
    ∀ (conds : List String) (pieces : List String),
      convertConditionsAux conds = .ok pieces →
      ∀ c ∈ conds, ∀ v, thirdTokenOf c = some v →
        ∃ f op, jsSplitWS (jsTrim c) = [f, op, v] ∧ formatFilterCondition f op v ∈ pieces := by
  intro conds
  induction conds with
  | nil => intro pieces _ c hc; cases hc
  | cons c₀ rest ih =>
      intro pieces h c hc v hv
      rcases hsplit : jsSplitWS (jsTrim c₀) with _ | ⟨f, _ | ⟨op, _ | ⟨w, _ | ⟨x, xs⟩⟩⟩⟩ <;>
        rw [convertConditionsAux, hsplit] at h
      case nil => simp at h
      case cons.nil => simp at h
      case cons.cons.nil => simp at h
      case cons.cons.cons.cons => simp at h
      case cons.cons.cons.nil =>
        rcases hrest : convertConditionsAux rest with e | restPieces <;> rw [hrest] at h <;>
          simp [Except.map] at h
        subst h
        rcases List.mem_cons.mp hc with rfl | hmem
        · unfold thirdTokenOf at hv
          rw [hsplit] at hv
          simp at hv
          subst hv
          exact ⟨f, op, hsplit, List.mem_cons_self _ _⟩
        · obtain ⟨f', op', hsplit', hmem'⟩ := ih restPieces hrest c hmem v hv
          exact ⟨f', op', hsplit', List.mem_cons_of_mem _ hmem'⟩

/-- The value token of a condition stands at the end of its translated
clause piece. -/
theorem formatFilterCondition_contains_value (f op v : String) :
    strContains (formatFilterCondition f op v) v := by
  refine ⟨"(data->>'" ++ f ++ "')::numeric " ++ op ++ " ", "", ?_⟩
  simp [formatFilterCondition, String.append_assoc]

/-- A substring of the empty string is empty. -/
theorem eq_empty_of_strContains_empty (sub : String) (h : strContains "" sub) : sub = "" := by
  obtain ⟨pre, post, hs⟩ := h
  have hd := congrArg String.data hs
  simp [String.data_append] at hd
  obtain ⟨-, hsub, -⟩ := hd
  cases sub with
  | mk data =>
      cases data with
      | nil => rfl
      | cons c cs => simp at hsub

/-- Every string contains the empty string. -/
theorem strContains_empty (s : String) : strContains s "" :=
  ⟨"", s, by simp⟩

/-- Counterexample to C1 as stated: for the condition list
`["score >= 20"]` the produced descriptor has an empty parameter list (and
the value 20 stands in the SQL text). -/
theorem c1_counterexample : ¬ filterValuesAlwaysBound := by
  intro h
  have h20 : thirdTokenOf "score >= 20" = some "20" := rfl
  have := h "test_filters" ["score >= 20"] false none _ rfl "score >= 20"
    (List.mem_singleton.mpr rfl) "20" h20
  exact absurd this.1 (by simp [strategyFilter])

/-- C1 (amended): in every filter query the worker builds, the
bound-parameter list is empty and each condition's value token is
interpolated into the SQL text itself; only the PostgreSQLDb draft's
`filter` passes the values as bound parameters with numbered placeholders
in the text. -/
theorem c1_filter_values_interpolated_not_bound :
    (∀ tableName conds sortDesc max d,
      workerFilterDescriptor tableName conds sortDesc max = .ok d →
      d.params = [] ∧ ∀ c ∈ conds, ∀ v, thirdTokenOf c = some v → strContains d.query v) ∧
    (∀ tableName conds sortDesc max d,
      pgDbFilterDescriptor tableName conds sortDesc max = .ok d →
      ∀ c ∈ conds, ∀ f op v rest, jsSplitWS c = f :: op :: v :: rest →
        JSVal.str (stripQuotes v) ∈ d.params) := by
  constructor
  · intro tableName conds sortDesc max d h
    unfold workerFilterDescriptor at h
    rcases hconds : conds with _ | ⟨c₀, rest⟩
    · rw [hconds] at h
      simp at h
      refine ⟨by rw [← h]; rfl, ?_⟩
      intro c hc; cases hc
    · rw [hconds] at h
      have hne : ((c₀ :: rest).isEmpty) = false := rfl
      rw [hne] at h
      simp only [Bool.false_eq_true, if_false] at h
      unfold convertConditionsToLokiQuery at h
      rw [hne] at h
      simp only [Bool.false_eq_true, if_false] at h
      rcases haux : convertConditionsAux (c₀ :: rest) with e | pieces <;> rw [haux] at h <;>
        simp at h
      subst h
      refine ⟨rfl, ?_⟩
      intro c hc v hv
      obtain ⟨f, op, _, hmem⟩ := convertConditionsAux_mem _ _ haux c hc v hv
      have hclause : strContains (joinSep " AND " pieces) v := by
        obtain ⟨pre, post, hpiece⟩ := formatFilterCondition_contains_value f op v
        obtain ⟨a, b, hj⟩ := strContains_of_mem_joinSep " AND " pieces _ hmem
        exact ⟨a ++ pre, post ++ b, by rw [hj, hpiece]; simp [String.append_assoc]⟩
      by_cases hempty : joinSep " AND " pieces = ""
      · rw [hempty] at hclause
        rw [eq_empty_of_strContains_empty v hclause]
        exact strContains_empty _
      · show strContains (strategyFilter tableName (joinSep " AND " pieces) "__timestamp"
          (if sortDesc then "DESC" else "ASC") max).query v
        simp only [strategyFilter, if_neg hempty, String.append_assoc]
        apply strContains_append_left
        apply strContains_append_left
        apply strContains_append_left
        apply strContains_append_left
        exact strContains_append_right _ _ _ hclause
  · intro tableName conds sortDesc max d h
    unfold pgDbFilterDescriptor at h
    suffices hgen : ∀ (idx : Nat) (conds₀ : List String) pieces values,
        pgDbConditionsAux idx conds₀ = .ok (pieces, values) →
        ∀ c ∈ conds₀, ∀ f op v rest, jsSplitWS c = f :: op :: v :: rest →
          JSVal.str (stripQuotes v) ∈ values by
      rcases haux : pgDbConditionsAux 1 conds with e | pv <;> rw [haux] at h <;> simp at h
      obtain ⟨pieces, values⟩ := pv
      intro c hc f op v rest hsplit
      have hmem := hgen 1 conds pieces values haux c hc f op v rest hsplit
      have hparams : d.params = values := by rw [← h]
      rw [hparams]
      exact hmem
    intro idx conds₀
    induction conds₀ generalizing idx with
    | nil => intro pieces values _ c hc; cases hc
    | cons c₀ rest₀ ih =>
        intro pieces values h₀ c hc f op v rest hsplit
        rcases hsplit₀ : jsSplitWS c₀ with _ | ⟨f₀, _ | ⟨op₀, _ | ⟨w₀, ws₀⟩⟩⟩ <;>
          rw [pgDbConditionsAux, hsplit₀] at h₀
        case nil => simp at h₀
        case cons.nil => simp at h₀
        case cons.cons.nil => simp at h₀
        case cons.cons.cons =>
          rcases hrest : pgDbConditionsAux (idx + 1) rest₀ with e | pv₀ <;> rw [hrest] at h₀ <;>
            simp [Except.map] at h₀
          obtain ⟨_, hvals⟩ := h₀
          rcases List.mem_cons.mp hc with rfl | hmem
          · rw [hsplit] at hsplit₀
            obtain ⟨_, _, hw, _⟩ := List.cons.inj hsplit₀ |>.imp id
              (fun h₂ => List.cons.inj h₂ |>.imp id (fun h₃ => List.cons.inj h₃))
            rw [← hvals, ← hw]
            exact List.mem_cons_self _ _
          · rw [← hvals]
            exact List.mem_cons_of_mem _ (ih (idx + 1) pv₀.1 pv₀.2 (by rw [hrest]) c hmem f op v rest hsplit)

/-- Witness for C1 (amended): the concrete condition list
`["score >= 20"]` yields a worker descriptor with empty parameters whose
text contains the value 20, while the PostgreSQLDb draft binds the 20. -/
theorem c1_witness :
    (∃ d, workerFilterDescriptor "test_filters" ["score >= 20"] false none = .ok d ∧
      d.params = [] ∧ strContains d.query "20") ∧
    (∃ d, pgDbFilterDescriptor "t" ["score >= 20"] false none = .ok d ∧
      JSVal.str "20" ∈ d.params) := by
  constructor
  · have h : workerFilterDescriptor "test_filters" ["score >= 20"] false none = .ok _ := rfl
    obtain ⟨hp, hcont⟩ := c1_filter_values_interpolated_not_bound.1 _ _ _ _ _ h
    exact ⟨_, h, hp, hcont "score >= 20" (List.mem_singleton.mpr rfl) "20" rfl⟩
  · have h : pgDbFilterDescriptor "t" ["score >= 20"] false none = .ok _ := rfl
    exact ⟨_, h, c1_filter_values_interpolated_not_bound.2 _ _ _ _ _ h "score >= 20"
      (List.mem_singleton.mpr rfl) "score" ">=" "20" [] rfl⟩

/-! Claim C2. -/

/-- Counterexample to C2 as stated: for the invalid identifier "bad name",
`removeCollection` still produces its DROP and DELETE statements — DDL/DML
is emitted with no validation error. -/
theorem c2_counterexample : ¬ identifiersAlwaysValidated := by
  intro h
  have hbad : validTableName "bad name" = false := by decide
  have := (h "bad name" hbad).2.1
  simp [removeCollection] at this

/-- C2 (amended): only `createCollection` validates the identifier — it
errors exactly on names failing the pattern, producing no statements —
while `removeCollection`, `addIndex` and the filter query builder emit
statements embedding the identifier for every name, valid or not. -/
theorem c2_only_createCollection_validates (name property clause sortField dir : String)
    (max : Option Nat) (indices : JSVal) :
    ((∃ e, createCollection name indices = .error e) ↔ validTableName name = false) ∧
    (∃ q ∈ removeCollection name, strContains q.query name) ∧
    strContains (addIndex name property) name ∧
    strContains (strategyFilter name clause sortField dir max).query name := by
  refine ⟨⟨?_, ?_⟩, ?_, ?_, ?_⟩
  · intro ⟨e, he⟩
    by_contra hv
    rw [createCollection] at he
    simp [hv] at he
  · intro hv
    exact ⟨"Invalid table name: " ++ name, by rw [createCollection]; simp [hv]⟩
  · refine ⟨(removeCollection name).head (by simp [removeCollection]), by simp [removeCollection], ?_⟩
    exact ⟨"DROP TABLE IF EXISTS \"", "\"", rfl⟩
  · exact ⟨"CREATE INDEX IF NOT EXISTS \"" ++ name ++ "_" ++ property ++ "\" ON \"",
      "\" ((data ->>'" ++ property ++ "'));",
      by simp [addIndex, createIndex, String.append_assoc]⟩
  · show strContains (strategyFilter name clause sortField dir max).query name
    simp only [strategyFilter]
    apply strContains_append_right
    apply strContains_append_right
    apply strContains_append_right
    apply strContains_append_right
    apply strContains_append_right
    apply strContains_append_right
    apply strContains_append_right
    apply strContains_append_right
    apply strContains_append_right
    exact ⟨"\n            SELECT pk, data, __timestamp \n            FROM \"", "", by simp⟩

/-! Claim C3. -/

/-- Counterexample to C3 as stated: `parseGetResult` (behind getRecord and
getOneRecord) returns the bare stored body — the returned document carries
no `pk` field at all. -/
theorem c3_counterexample : ¬ everyRecordResultMerged := by
  intro h
  have := ((h ⟨"k1", .obj [("name", .str "Test")], 5⟩ 1 "SELECT").1 _ rfl).1
  simp [getField, lookupF] at this

/-- C3 (amended): insert, update and filter results merge the stored body
with `pk` and `__timestamp`, silently overwriting caller-supplied values of
those fields — for insert both at the parse level (the row's own pk and
timestamp being non-falsy) and through the whole worker insert pipeline —
but getRecord/getOneRecord return the bare body, and deleteRecord returns
`{pk, data, __timestamp}` with the body nested under `data`, not merged. -/
theorem c3_merged_and_unmerged_result_shapes (rows erows : List SqlRow) (row : SqlRow)
    (n : Nat) (cmd : String) :
    parseFilterResults ⟨rows, n, cmd⟩ = rows.map mergeRow ∧
    recordMergedShape (mergeRow row) row ∧
    (row.pk ≠ "" → row.__timestamp ≠ 0 → ∀ pkArg (nowArg : Int),
      parseInsertResult ⟨row :: erows, n, cmd⟩ pkArg nowArg = .ok (mergeRow row)) ∧
    (∀ st tableName pk record (now : Int) st' doc,
      workerInsertRecord st tableName pk record now = (st', .ok doc) →
      doc = mergeRow ⟨pk, toJsonb record, now⟩) ∧
    parseGetResult ⟨row :: erows, n, cmd⟩ = some row.data ∧
    parseUpdateResult ⟨row :: erows, n, cmd⟩ = some (mergeRow row) ∧
    parseDeleteResult ⟨row :: erows, n, cmd⟩ =
      some (.obj [("pk", .str row.pk), ("data", row.data),
        ("__timestamp", .num row.__timestamp)]) := by
  have hne : ("pk" : String) ≠ "__timestamp" := by decide
  refine ⟨rfl, ⟨?_, ?_, ?_⟩, ?_, ?_, rfl, rfl, rfl⟩
  · simp [mergeRow, getField]
    rw [lookupF_setField_ne _ _ _ _ hne, lookupF_setField_self]
  · simp [mergeRow, getField, lookupF_setField_self]
  · intro k v hk hpk hts
    simp [mergeRow, getField]
    rw [lookupF_setField_ne _ _ _ _ hts, lookupF_setField_ne _ _ _ _ hpk]
    exact hk
  · intro hpk hts pkArg nowArg
    simp [parseInsertResult, mergeRow, hpk, hts]
  · intro st tableName pk record now st' doc h
    unfold workerInsertRecord at h
    rcases hins : pgInsertRow st tableName pk (toJsonb record) now with e | ⟨st₁, row⟩ <;>
      rw [hins] at h
    · simp only [] at h
      by_cases hc : (wrapExecError e).code = some "23505" <;> simp [hc] at h
    · have hrow := pgInsertRow_ok_row st tableName pk (toJsonb record) now st₁ row hins
      subst hrow
      simp [parseInsertResult, mergeRow] at h
      exact h.2.symm

/-! Claim C4. -/

/-- Counterexample to C4 as stated: on the empty database the worker's
listQueue task propagates the missing-relation error instead of returning
the empty list. -/
theorem c4_counterexample : ¬ emptyQueueForMissingTable := by
  intro h
  have := (h [] "nonexistent" false none rfl).1
  simp [workerListQueue, pgSelectAll, lookupTable] at this

/-- C4 (amended): only the PostgreSQLDb draft's `listQueue` catches the
missing-relation error (code 42P01) and returns the empty list; the worker
path's listQueue task and queueSize (the count task) both propagate the
error to the caller. -/
theorem c4_missing_table_split_behaviour (st : DbState) (q : String) (sortDesc : Bool)
    (limit : Option Nat) (h : lookupTable st q = none) :
    pgDbListQueue st q sortDesc limit = .ok [] ∧
    workerListQueue st q sortDesc limit = .error (wrapExecError (err42P01 q)) ∧
    facadeQueueSize st q = .error (wrapExecError (err42P01 q)) := by
  refine ⟨?_, ?_, ?_⟩ <;>
    simp [pgDbListQueue, workerListQueue, facadeQueueSize, workerCount,
      pgSelectAll, pgCountRows, h, err42P01, wrapExecError]

/-- Witness for C4 (amended) at the empty database and the queue name of
the spec's own example. -/
theorem c4_witness :
    pgDbListQueue [] "nonexistent" false none = .ok [] ∧
    workerListQueue [] "nonexistent" false none = .error (wrapExecError (err42P01 "nonexistent")) ∧
    facadeQueueSize [] "nonexistent" = .error (wrapExecError (err42P01 "nonexistent")) :=
  c4_missing_table_split_behaviour [] "nonexistent" false none rfl

/-! Claim C6. -/

/-- C6: when a record with the given key already exists in the collection,
the worker's insert task fails with the duplicate-record error and the
database state — the previously stored record included — is unchanged. -/
theorem c6_duplicate_insert_fails_and_preserves (st : DbState) (t pk : String) (doc : JSVal)
    (now : Int) (rows : List SqlRow) (r : SqlRow)
    (hl : lookupTable st t = some rows) (hr : rowLookup rows pk = some r) :
    workerInsertRecord st t pk doc now =
      (st, .error (plainErr ("Record with key " ++ pk ++ " already exists"))) := by
  unfold workerInsertRecord
  simp [pgInsertRow, hl, hr, wrapExecError, err23505]

/-- Witness for C6: the second insert at `k1` fails with the duplicate
error and leaves the state exactly as it was. -/
theorem c6_witness :
    workerInsertRecord demoDupState "t" "k1" (.obj [("other", .num 1)]) 9 =
      (demoDupState, .error (plainErr "Record with key k1 already exists")) :=
  c6_duplicate_insert_fails_and_preserves demoDupState "t" "k1" (.obj [("other", .num 1)]) 9
    [⟨"k1", .obj [("name", .str "Test"), ("value", .num 123)], 5⟩]
    ⟨"k1", .obj [("name", .str "Test"), ("value", .num 123)], 5⟩ rfl rfl

/-! Claim C7. -/

/-- Counterexample to C7 as stated: when the clock has not advanced past
the stored timestamp (two operations in the same millisecond), the updated
record's timestamp equals the prior one instead of exceeding it. -/
theorem c7_counterexample : ¬ updateTimestampStrictlyIncreases := by
  intro h
  have hupd : workerUpdateRecord [("t", [⟨"k1", .jsNull, 5⟩])] "t" "k1" .jsNull 5 =
      ([("t", [⟨"k1", .jsNull, 5⟩])],
        .ok (some (.obj [("pk", .str "k1"), ("__timestamp", .num 5)]))) := by
    simp [workerUpdateRecord, pgUpdateRow, lookupTable, rowLookup, setTable, toJsonb,
      parseUpdateResult, mergeRow, jsSpreadFields, setField]
  have h5 := h [("t", [⟨"k1", .jsNull, 5⟩])] "t" "k1" .jsNull 5
    [⟨"k1", .jsNull, 5⟩] ⟨"k1", .jsNull, 5⟩ _ _ 5 rfl rfl hupd rfl
  simp at h5

/-- C7 (amended): the updated record's `__timestamp` equals the clock value
at execution time — the code never compares it with the prior timestamp —
so it strictly exceeds the prior one exactly when the clock advanced. -/
theorem c7_update_timestamp_equals_clock (st : DbState) (t pk : String) (doc : JSVal)
    (now : Int) (rows : List SqlRow) (r : SqlRow) (st' : DbState) (rec : JSVal)
    (hl : lookupTable st t = some rows) (hr : rowLookup rows pk = some r)
    (hupd : workerUpdateRecord st t pk doc now = (st', .ok (some rec))) :
    getField rec "__timestamp" = some (.num now) ∧
    (r.__timestamp < now → ∀ k : Int, getField rec "__timestamp" = some (.num k) →
      r.__timestamp < k) := by
  unfold workerUpdateRecord at hupd
  simp [pgUpdateRow, hl, hr, parseUpdateResult] at hupd
  obtain ⟨-, hrec⟩ := hupd
  have hts : getField rec "__timestamp" = some (.num now) := by
    rw [← hrec]
    simp [mergeRow, getField, lookupF_setField_self]
  refine ⟨hts, fun hlt k hk => ?_⟩
  rw [hts] at hk
  simp at hk
  omega

/-- Witness for C7 (amended): updating the stored record with clock value 9
yields a record stamped 9. -/
theorem c7_witness :
    ∃ st' rec, workerUpdateRecord [("t", [⟨"k1", .jsNull, 3⟩])] "t" "k1" .jsNull 9 =
      (st', .ok (some rec)) ∧ getField rec "__timestamp" = some (.num 9) := by
  have hupd : workerUpdateRecord [("t", [⟨"k1", .jsNull, 3⟩])] "t" "k1" .jsNull 9 =
      ([("t", [⟨"k1", .jsNull, 9⟩])],
        .ok (some (.obj [("pk", .str "k1"), ("__timestamp", .num 9)]))) := by
    simp [workerUpdateRecord, pgUpdateRow, lookupTable, rowLookup, setTable, toJsonb,
      parseUpdateResult, mergeRow, jsSpreadFields, setField]
  exact ⟨_, _, hupd,
    (c7_update_timestamp_equals_clock [("t", [⟨"k1", .jsNull, 3⟩])] "t" "k1" .jsNull 9
      [⟨"k1", .jsNull, 3⟩] ⟨"k1", .jsNull, 3⟩ _ _ rfl rfl hupd).1⟩

/-! Claim C5. -/

theorem runTxQueries_ok_length
    (exec : DbState → String → List JSVal → Except SqlErr (DbState × SqlResult)) :
    ∀ (qs : List TxQuery) (st st' : DbState) (rs : List SqlResult),
      runTxQueries exec st qs = .ok (st', rs) → rs.length = qs.length := by
  intro qs
  induction qs with
  | nil => intro st st' rs h; simp [runTxQueries] at h; simp [h.2.symm]
  | cons q rest ih =>
      intro st st' rs h
      rw [runTxQueries] at h
      by_cases htext : txText q = ""
      · simp [htext] at h
      · simp [htext] at h
        rcases hexec : exec st (txText q) (txParams q) with e | ⟨st₁, res⟩ <;>
          rw [hexec] at h <;> simp at h
        rcases hrest : runTxQueries exec st₁ rest with e | ⟨st₂, rs₂⟩ <;>
          rw [hrest] at h <;> simp at h
        obtain ⟨-, hrs⟩ := h
        rw [← hrs]
        simp [ih st₁ st₂ rs₂ hrest]

theorem runTxQueries_error_decomp
    (exec : DbState → String → List JSVal → Except SqlErr (DbState × SqlResult)) :
    ∀ (qs : List TxQuery) (st : DbState) (e : SqlErr),
      runTxQueries exec st qs = .error e →
      ∃ pre q post stPre rsPre, qs = pre ++ q :: post ∧
        runTxQueries exec st pre = .ok (stPre, rsPre) ∧
        ((txText q = "" ∧ e = plainErr "Query string is required") ∨
          exec stPre (txText q) (txParams q) = .error e) := by
  intro qs
  induction qs with
  | nil => intro st e h; simp [runTxQueries] at h
  | cons q rest ih =>
      intro st e h
      rw [runTxQueries] at h
      by_cases htext : txText q = ""
      · simp [htext] at h
        exact ⟨[], q, rest, st, [], rfl, rfl, .inl ⟨htext, h.symm⟩⟩
      · simp [htext] at h
        rcases hexec : exec st (txText q) (txParams q) with e₀ | ⟨st₁, res⟩ <;>
          rw [hexec] at h
        · simp at h
          exact ⟨[], q, rest, st, [], rfl, rfl, .inr (by rw [hexec, h])⟩
        · simp only [] at h
          rcases hrest : runTxQueries exec st₁ rest with e₁ | pr <;> rw [hrest] at h <;>
            simp at h
          obtain ⟨pre, q', post, stPre, rsPre, hqs, hpre, hfail⟩ :=
            ih st₁ e₁ (by rw [hrest, h])
          refine ⟨q :: pre, q', post, stPre, res :: rsPre, by simp [hqs], ?_, by rw [← h]; exact hfail⟩
          rw [runTxQueries]
          simp [htext, hexec, hpre]

theorem applySession_clientCmds
    (exec : DbState → String → List JSVal → Except SqlErr (DbState × SqlResult)) :
    ∀ (qs : List TxQuery) (committed w : DbState),
      applySession exec committed (some w) (clientCmds exec w qs) =
        (match runTxQueries exec w qs with
          | .ok (w', _) => w'
          | .error _ => committed) := by
  intro qs
  induction qs with
  | nil => intro committed w; simp [clientCmds, applySession, runTxQueries]
  | cons q rest ih =>
      intro committed w
      rw [clientCmds, runTxQueries]
      by_cases htext : txText q = ""
      · simp [htext, applySession]
      · simp only [htext, Bool.false_eq_true, if_false, ite_false]
        rcases hexec : exec w (txText q) (txParams q) with e | ⟨w', res⟩
        · simp [applySession, hexec]
        · simp only [applySession, hexec, ih]
          rcases runTxQueries exec w' rest with e₁ | pr <;> simp

/-- The committed state after replaying the exact client trace equals the
state `executeTransaction` reports: full rollback on failure, the folded
state on success. -/
theorem executeTransaction_refines_session
    (exec : DbState → String → List JSVal → Except SqlErr (DbState × SqlResult))
    (st : DbState) (queries : List TxQuery) :
    applySession exec st none (.begin :: clientCmds exec st queries) =
      (executeTransaction exec st queries).1 := by
  rw [show applySession exec st none (.begin :: clientCmds exec st queries) =
    applySession exec st (some st) (clientCmds exec st queries) from rfl]
  rw [applySession_clientCmds exec queries st st]
  unfold executeTransaction
  rcases runTxQueries exec st queries with e | pr <;> simp

/-- C5: `executeTransaction` is all-or-nothing — a committed run returns one
result per statement (the transaction commits only when every statement
succeeded), on any failure the returned database state is exactly the
caller's state (full rollback), the error being the first failing
statement's, reached after a successful prefix; and the state it reports is
the one obtained by replaying its BEGIN/statements/COMMIT-or-ROLLBACK
client trace against the session semantics. -/
theorem c5_executeTransaction_all_or_nothing
    (exec : DbState → String → List JSVal → Except SqlErr (DbState × SqlResult))
    (st : DbState) (queries : List TxQuery) (st' : DbState)
    (out : Except SqlErr (List SqlResult))
    (h : executeTransaction exec st queries = (st', out)) :
    (∀ rs, out = .ok rs → rs.length = queries.length) ∧
    (∀ e, out = .error e → st' = st ∧
      ∃ pre q post stPre rsPre, queries = pre ++ q :: post ∧
        runTxQueries exec st pre = .ok (stPre, rsPre) ∧
        ((txText q = "" ∧ e = plainErr "Query string is required") ∨
          exec stPre (txText q) (txParams q) = .error e)) ∧
    applySession exec st none (.begin :: clientCmds exec st queries) = st' := by
  have hsession : applySession exec st none (.begin :: clientCmds exec st queries) = st' := by
    rw [executeTransaction_refines_session, h]
  refine and_assoc.mp ⟨?_, hsession⟩
  unfold executeTransaction at h
  rcases hrun : runTxQueries exec st queries with e₀ | ⟨st₀, rs₀⟩ <;> rw [hrun] at h
  · have hst : st = st' := congrArg Prod.fst h
    have hout : Except.error e₀ = out := congrArg Prod.snd h
    constructor
    · intro rs hrs; rw [← hout] at hrs; exact absurd hrs (by simp)
    · intro e he
      rw [← hout] at he
      have hee : e₀ = e := by injection he
      rw [hee] at hrun
      exact ⟨hst.symm, runTxQueries_error_decomp exec queries st e hrun⟩
  · have hst : st₀ = st' := congrArg Prod.fst h
    have hout : Except.ok rs₀ = out := congrArg Prod.snd h
    constructor
    · intro rs hrs
      rw [← hout] at hrs
      have hrr : rs₀ = rs := by injection hrs
      rw [hrr] at hrun
      exact runTxQueries_ok_length exec queries st st₀ rs hrun
    · intro e he; rw [← hout] at he; exact absurd he (by simp)

/-- Witness for C5: a transaction whose second statement fails rolls back —
the state component is the initial empty database — the failure decomposes
as the theorem states, and the removeCollection transaction behaves the same
way when its registry delete fails. -/
theorem c5_witness :
    executeTransaction demoExec [] [.raw "a", .raw "FAIL"] = ([], .error (plainErr "boom")) ∧
    (∃ pre q post stPre rsPre,
      ([TxQuery.raw "a", TxQuery.raw "FAIL"] : List TxQuery) = pre ++ q :: post ∧
      runTxQueries demoExec [] pre = .ok (stPre, rsPre) ∧
      ((txText q = "" ∧ plainErr "boom" = plainErr "Query string is required") ∨
        demoExec stPre (txText q) (txParams q) = .error (plainErr "boom"))) ∧
    workerRemoveCollection demoExecDeleteFails [] "t" =
      ([], .error (plainErr "delete failed")) ∧
    (workerRemoveCollection demoExecDeleteFails [] "t").1 = [] := by
  have h : executeTransaction demoExec [] [.raw "a", .raw "FAIL"] =
      ([], .error (plainErr "boom")) := rfl
  have hrm : executeTransaction demoExecDeleteFails []
      ((removeCollection "t").map TxQuery.desc) = ([], .error (plainErr "delete failed")) := rfl
  refine ⟨h, ((c5_executeTransaction_all_or_nothing demoExec [] [.raw "a", .raw "FAIL"] []
    (.error (plainErr "boom")) h).2.1 (plainErr "boom") rfl).2, hrm, ?_⟩
  have hroll := ((c5_executeTransaction_all_or_nothing demoExecDeleteFails []
    ((removeCollection "t").map TxQuery.desc) [] (.error (plainErr "delete failed")) hrm).2.1
    (plainErr "delete failed") rfl).1
  show (executeTransaction demoExecDeleteFails []
    ((removeCollection "t").map TxQuery.desc)).1 = []
  rw [hrm]

end LightDB

